import Mathlib

/-!
Verification of the motile ILP-compilation core: the `NodeAppear` derived
variable (src/motile/variables/node_appear.py), the `NodeSelection` cost
(src/motile/costs/node_selection.py), and the argument validation of
`draw_track_graph` (src/motile/plot.py).

Numeric values (ilpy coefficients, Python floats holding small exact values)
are embedded as rationals `ℚ`; Python dicts with all relevant keys present are
embedded as total functions; the ordered key/value view of a variable mapping
is an explicit list; Python exceptions become an explicit error type threaded
through `Except`-style results.
-/

namespace Motile

abbrev NodeId := Nat

abbrev EdgeId := NodeId × NodeId

/-- Python exception classes raised by the embedded code.  `keyError` is the
class Python raises for a failed dict lookup (a subclass of `LookupError`);
`runtimeError` is what `plot.py` raises on conflicting arguments.
`configurationError` is modelled from the spec's error taxonomy (§7), which
names a `ConfigurationError` class; no such class appears in the source. -/
inductive PyError where
  | keyError (key : String)
  | runtimeError (msg : String)
  | configurationError (msg : String)
deriving DecidableEq

/-- Python's exception-class hierarchy: `KeyError` is a subclass of
`LookupError`; `RuntimeError` and any `ConfigurationError` are not. -/
def PyError.isLookupError : PyError → Bool
  | PyError.keyError _ => true
  | PyError.runtimeError _ => false
  | PyError.configurationError _ => false

def PyError.isConfigurationError : PyError → Bool
  | PyError.configurationError _ => true
  | PyError.keyError _ => false
  | PyError.runtimeError _ => false

def PyError.isRuntimeError : PyError → Bool
  | PyError.runtimeError _ => true
  | PyError.keyError _ => false
  | PyError.configurationError _ => false

/-- `ilpy.Relation`. -/
inductive Relation where
  | LessEqual
  | GreaterEqual
  | Equal
deriving DecidableEq

/-- `ilpy.LinearConstraint`: a column-to-coefficient mapping, a relation and a
right-hand side.  The mapping is kept as an ordered association list, matching
dict semantics: `set_coefficient` overwrites an existing entry in place and
appends a fresh one. -/
structure LinearConstraint where
  coefficients : List (Nat × ℚ) := []
  relation : Relation := Relation.LessEqual
  value : ℚ := 0
deriving DecidableEq

def LinearConstraint.set_coefficient (c : LinearConstraint) (i : Nat) (v : ℚ) :
    LinearConstraint :=
  if c.coefficients.any (fun p => p.1 == i) then
    { c with coefficients := c.coefficients.map (fun p => if p.1 == i then (i, v) else p) }
  else
    { c with coefficients := c.coefficients ++ [(i, v)] }

def LinearConstraint.set_relation (c : LinearConstraint) (r : Relation) : LinearConstraint :=
  { c with relation := r }

def LinearConstraint.set_value (c : LinearConstraint) (v : ℚ) : LinearConstraint :=
  { c with value := v }

/-- The columns on which a coefficient has been set. -/
def LinearConstraint.keys (c : LinearConstraint) : List Nat :=
  c.coefficients.map (fun p => p.1)

/-- The coefficient stored for column `i` (`0` when the column is absent, as
for any linear expression). -/
def LinearConstraint.coefficient (c : LinearConstraint) (i : Nat) : ℚ :=
  match c.coefficients.find? (fun p => p.1 == i) with
  | some p => p.2
  | none => 0

/-- The left-hand side of the constraint under an assignment of a value to
every column. -/
def LinearConstraint.lhs (c : LinearConstraint) (x : Nat → ℚ) : ℚ :=
  (c.coefficients.map (fun p => p.2 * x p.1)).sum

def Relation.holds : Relation → ℚ → ℚ → Bool
  | Relation.LessEqual, a, b => decide (a ≤ b)
  | Relation.GreaterEqual, a, b => decide (b ≤ a)
  | Relation.Equal, a, b => decide (a = b)

/-- Whether the assignment `x` satisfies the constraint. -/
def LinearConstraint.satisfiedBy (c : LinearConstraint) (x : Nat → ℚ) : Bool :=
  Relation.holds c.relation (c.lhs x) c.value

/-- The track graph, at the interface the embedded modules use: the node
list, per-node attribute dictionaries, and the incoming-edge adjacency
`prev_edges`. -/
structure TrackGraph where
  nodes : List NodeId
  nodeAttrs : NodeId → String → Option ℚ
  prev_edges : NodeId → List EdgeId

/-- `motile.costs.Weight`, holding a literal value; `resolve` returns it.
The named-parameter variant of the spec is not exercised by the embedded
modules, which construct weights from literals only. -/
structure Weight where
  value : ℚ
deriving DecidableEq

def Weight.resolve (w : Weight) : ℚ := w.value

/-- The solver context seen by the embedded modules: the graph, the variable
mappings returned by `get_variables` for `NodeSelected`, `EdgeSelected` and
`NodeAppear` (each element's column index; `nodeSelectedOrder` is the key
iteration order of the `NodeSelected` mapping), the accumulated objective
coefficients per column, and the constraints added so far. -/
structure Solver where
  graph : TrackGraph
  nodeSelectedOrder : List NodeId
  nodeSelectedIdx : NodeId → Nat
  edgeSelectedIdx : EdgeId → Nat
  nodeAppearIdx : NodeId → Nat
  objective : Nat → ℚ
  constraints : List LinearConstraint

/-- The ordered `(element, column)` view of the `NodeSelected` variable
mapping, as iterated by `node_variables.items()`. -/
def Solver.nodeSelectedItems (s : Solver) : List (NodeId × Nat) :=
  s.nodeSelectedOrder.map (fun n => (n, s.nodeSelectedIdx n))

/-- Modelled from the spec: `Solver.add_variable_cost(index, value, weight)`
is not under src/; per §4.3/§4.4 it accumulates `value × weight.resolve()`
into the objective coefficient of the given column (additive, touching no
other column). -/
def Solver.add_variable_cost (s : Solver) (index : Nat) (value : ℚ) (weight : Weight) :
    Solver :=
  { s with objective := fun i => if i = index then s.objective i + value * weight.resolve
                                 else s.objective i }

namespace NodeAppear

/-- `NodeAppear.instantiate`: returns `solver.graph.nodes`. -/
def instantiate (solver : Solver) : List NodeId :=
  solver.graph.nodes

/-- The constraints yielded for one `node` by the loop body of
`NodeAppear.instantiate_constraints`. -/
def constraintsForNode (solver : Solver) (node : NodeId) : List LinearConstraint :=
  let prev_edges := solver.graph.prev_edges node
  let num_prev_edges := prev_edges.length
  if num_prev_edges = 0 then
    -- special case: no incoming edges, appear indicator is equal to
    -- selection indicator
    let constraint :=
      (((({} : LinearConstraint).set_coefficient (solver.nodeSelectedIdx node) 1).set_coefficient
          (solver.nodeAppearIdx node) (-1)).set_relation Relation.Equal).set_value 0
    [constraint]
  else
    -- let s = num_prev * selected - sum(prev_selected)
    -- (1) s - appear <= num_prev - 1
    -- (2) s - appear * num_prev >= 0
    let c1 := ({} : LinearConstraint).set_coefficient (solver.nodeSelectedIdx node)
      (num_prev_edges : ℚ)
    let c2 := ({} : LinearConstraint).set_coefficient (solver.nodeSelectedIdx node)
      (num_prev_edges : ℚ)
    let c1 := prev_edges.foldl
      (fun c prev_edge => c.set_coefficient (solver.edgeSelectedIdx prev_edge) (-1)) c1
    let c2 := prev_edges.foldl
      (fun c prev_edge => c.set_coefficient (solver.edgeSelectedIdx prev_edge) (-1)) c2
    let constraint1 :=
      ((c1.set_coefficient (solver.nodeAppearIdx node) (-1)).set_relation
        Relation.LessEqual).set_value ((num_prev_edges : ℚ) - 1)
    let constraint2 :=
      ((c2.set_coefficient (solver.nodeAppearIdx node) (-(num_prev_edges : ℚ))).set_relation
        Relation.GreaterEqual).set_value 0
    [constraint1, constraint2]

/-- `NodeAppear.instantiate_constraints`: the generator's output, one loop
iteration per graph node. -/
def instantiate_constraints (solver : Solver) : List LinearConstraint :=
  solver.graph.nodes.flatMap (constraintsForNode solver)

end NodeAppear

/-- `motile.costs.NodeSelection`: configuration of the node-selection cost. -/
structure NodeSelection where
  weight : Weight
  attr : String
  constant : Weight

/-- `NodeSelection.__init__(weight, attribute="costs", constant=0.0)`. -/
def NodeSelection.new (weight : ℚ) (attr : String := "costs") (constant : ℚ := 0) :
    NodeSelection :=
  { weight := { value := weight }, attr := attr, constant := { value := constant } }

/-- The `for node, index in node_variables.items()` loop of
`NodeSelection.apply`.  The attribute lookup
`solver.graph.nodes[node][self.attribute]` is evaluated before the first
`add_variable_cost` call of the iteration; a missing key raises `KeyError`,
leaving the solver as mutated so far. -/
def NodeSelection.applyLoop (c : NodeSelection) (solver : Solver) :
    List (NodeId × Nat) → Solver × Option PyError
  | [] => (solver, none)
  | (node, index) :: rest =>
    match solver.graph.nodeAttrs node c.attr with
    | none => (solver, some (PyError.keyError c.attr))
    | some v =>
      let solver := solver.add_variable_cost index v c.weight
      let solver := solver.add_variable_cost index 1 c.constant
      NodeSelection.applyLoop c solver rest

/-- `NodeSelection.apply(solver)`. -/
def NodeSelection.apply (c : NodeSelection) (solver : Solver) : Solver × Option PyError :=
  NodeSelection.applyLoop c solver solver.nodeSelectedItems

/-- The mutually-exclusive-argument validation performed by
`draw_track_graph` (plot.py): each of the three attribute/function pairs is
checked in source order, raising `RuntimeError` when both members of a pair
are supplied. -/
def draw_track_graph_validate (position_attribute : Option String)
    (position_func : Option (NodeId → ℚ)) (alpha_attribute : Option String)
    (alpha_func : Option (NodeId → ℚ)) (label_attribute : Option String)
    (label_func : Option (NodeId → String)) : Option PyError :=
  if position_attribute.isSome && position_func.isSome then
    some (PyError.runtimeError "Only one of position_attribute and position_func can be given")
  else if alpha_attribute.isSome && alpha_func.isSome then
    some (PyError.runtimeError "Only one of alpha_attribute and alpha_func can be given")
  else if label_attribute.isSome && label_func.isSome then
    some (PyError.runtimeError "Only one of label_attribute and label_func can be given")
  else
    none

/-! ### Concrete instances: the 3-node chain scenario -/

/-- The 3-node chain graph `A → B → C` of the end-to-end scenario (nodes
`0, 1, 2` standing for `A, B, C`), every node carrying the cost attribute
`"costs"` with value `1`, with edges `(0, 1)` and `(1, 2)`. -/
def chainGraph : TrackGraph where
  nodes := [0, 1, 2]
  nodeAttrs := fun n a => if a = "costs" ∧ n < 3 then some 1 else none
  prev_edges := fun n => if n = 1 then [(0, 1)] else if n = 2 then [(1, 2)] else []

/-- A solver context over `chainGraph`: `NodeSelected` columns `0, 1, 2`,
`EdgeSelected` columns `3` for `(0, 1)` and `4` for `(1, 2)`, `NodeAppear`
columns `5, 6, 7`, empty objective, no constraints yet. -/
def chainSolver : Solver where
  graph := chainGraph
  nodeSelectedOrder := [0, 1, 2]
  nodeSelectedIdx := fun n => n
  edgeSelectedIdx := fun e => 3 + e.1
  nodeAppearIdx := fun n => 5 + n
  objective := fun _ => 0
  constraints := []

/-- A second solver context sharing `chainSolver`'s graph but differing in
its accumulated objective. -/
def chainSolverAlt : Solver :=
  { chainSolver with objective := fun _ => 1 }

/-- The chain context with the `"costs"` attribute missing on the middle
node `1`. -/
def chainSolverMissing : Solver :=
  { chainSolver with
      graph :=
        { chainGraph with
            nodeAttrs := fun n a =>
              if a = "costs" ∧ (n = 0 ∨ n = 2) then some 1 else none } }

/-- The assignment over `chainSolver`'s columns that selects nodes `A`, `B`
and edge `(A, B)` (columns 0, 1 and 3), does not select `C` or `(B, C)`,
and gives the three appear indicators the values `aA`, `aB`, `aC`
(columns 5, 6, 7). -/
def chainAssignment (aA aB aC : ℚ) : Nat → ℚ := fun i =>
  if i = 5 then aA
  else if i = 6 then aB
  else if i = 7 then aC
  else if i = 0 ∨ i = 1 ∨ i = 3 then 1
  else 0

/-- The assignment of the literally-stated scenario: only node `A`
(column 0) and edge `(A, B)` (column 3) selected, appear indicators `aA`,
`aB`, `aC`. -/
def chainLiteralAssignment (aA aB aC : ℚ) : Nat → ℚ := fun i =>
  if i = 5 then aA
  else if i = 6 then aB
  else if i = 7 then aC
  else if i = 0 ∨ i = 3 then 1
  else 0

/-- The objective increment per column produced by running the
`NodeSelection.apply` loop over the given `(node, column)` items: each item
adds, on its own column, the attribute value times `weight.resolve()` plus
`1` times `constant.resolve()`. -/
def nodeCostContributions (c : NodeSelection) (g : TrackGraph)
    (items : List (NodeId × Nat)) (i : Nat) : ℚ :=
  ((items.filter (fun p => p.2 == i)).map
    (fun p => (g.nodeAttrs p.1 c.attr).getD 0 * c.weight.resolve
      + 1 * c.constant.resolve)).sum

/-! ### Basic lemmas on `LinearConstraint` -/

namespace LinearConstraint

theorem relation_set_coefficient (c : LinearConstraint) (i : Nat) (v : ℚ) :
    (c.set_coefficient i v).relation = c.relation := by
  unfold set_coefficient; split <;> rfl

theorem value_set_coefficient (c : LinearConstraint) (i : Nat) (v : ℚ) :
    (c.set_coefficient i v).value = c.value := by
  unfold set_coefficient; split <;> rfl

theorem relation_set_value (c : LinearConstraint) (v : ℚ) :
    (c.set_value v).relation = c.relation := rfl

theorem coefficients_set_value (c : LinearConstraint) (v : ℚ) :
    (c.set_value v).coefficients = c.coefficients := rfl

theorem value_set_relation (c : LinearConstraint) (r : Relation) :
    (c.set_relation r).value = c.value := rfl

theorem coefficients_set_relation (c : LinearConstraint) (r : Relation) :
    (c.set_relation r).coefficients = c.coefficients := rfl

theorem coefficients_set_coefficient_of_not_mem (c : LinearConstraint) (i : Nat) (v : ℚ)
    (h : i ∉ c.keys) :
    (c.set_coefficient i v).coefficients = c.coefficients ++ [(i, v)] := by
  have hany : c.coefficients.any (fun p => p.1 == i) = false := by
    rw [List.any_eq_false]
    intro p hp he
    exact h (List.mem_map.mpr ⟨p, hp, by simpa using he⟩)
  unfold set_coefficient
  rw [hany]
  simp

theorem keys_set_coefficient_of_not_mem (c : LinearConstraint) (i : Nat) (v : ℚ)
    (h : i ∉ c.keys) : (c.set_coefficient i v).keys = c.keys ++ [i] := by
  rw [keys, coefficients_set_coefficient_of_not_mem c i v h]
  simp [keys]

theorem foldl_set_coefficient_coefficients {α : Type} (f : α → Nat) (w : ℚ) :
    ∀ (es : List α) (c : LinearConstraint), (es.map f).Nodup →
      (∀ e ∈ es, f e ∉ c.keys) →
      (es.foldl (fun c e => c.set_coefficient (f e) w) c).coefficients
        = c.coefficients ++ es.map (fun e => (f e, w))
  | [], c, _, _ => by simp
  | e :: es, c, hnd, hdisj => by
    have hkeys : (c.set_coefficient (f e) w).keys = c.keys ++ [f e] :=
      keys_set_coefficient_of_not_mem c (f e) w (hdisj e (List.mem_cons_self e es))
    have hnd' : (es.map f).Nodup := (List.nodup_cons.mp (by simpa using hnd)).2
    have hdisj' : ∀ a ∈ es, f a ∉ (c.set_coefficient (f e) w).keys := by
      intro a ha
      rw [hkeys]
      intro hmem
      rcases List.mem_append.mp hmem with h1 | h2
      · exact hdisj a (List.mem_cons_of_mem e ha) h1
      · have : f a = f e := by simpa using h2
        have : f e ∈ es.map f := this ▸ List.mem_map_of_mem f ha
        exact (List.nodup_cons.mp (by simpa using hnd)).1 this
    calc ((e :: es).foldl (fun c a => c.set_coefficient (f a) w) c).coefficients
        = (es.foldl (fun c a => c.set_coefficient (f a) w)
            (c.set_coefficient (f e) w)).coefficients := by simp
      _ = (c.set_coefficient (f e) w).coefficients ++ es.map (fun a => (f a, w)) :=
          foldl_set_coefficient_coefficients f w es _ hnd' hdisj'
      _ = c.coefficients ++ (e :: es).map (fun a => (f a, w)) := by
          rw [coefficients_set_coefficient_of_not_mem c (f e) w
            (hdisj e (List.mem_cons_self e es))]
          simp

theorem relation_foldl_set_coefficient {α : Type} (f : α → Nat) (w : ℚ) :
    ∀ (es : List α) (c : LinearConstraint),
      (es.foldl (fun c e => c.set_coefficient (f e) w) c).relation = c.relation
  | [], c => rfl
  | e :: es, c => by
    rw [List.foldl_cons, relation_foldl_set_coefficient f w es, relation_set_coefficient]

theorem value_foldl_set_coefficient {α : Type} (f : α → Nat) (w : ℚ) :
    ∀ (es : List α) (c : LinearConstraint),
      (es.foldl (fun c e => c.set_coefficient (f e) w) c).value = c.value
  | [], c => rfl
  | e :: es, c => by
    rw [List.foldl_cons, value_foldl_set_coefficient f w es, value_set_coefficient]

theorem coefficient_nil (r : Relation) (val : ℚ) (i : Nat) :
    coefficient ⟨[], r, val⟩ i = 0 := rfl

theorem coefficient_cons (a : Nat × ℚ) (L : List (Nat × ℚ)) (r : Relation) (val : ℚ)
    (i : Nat) :
    coefficient ⟨a :: L, r, val⟩ i
      = if a.1 = i then a.2 else coefficient ⟨L, r, val⟩ i := by
  by_cases h : a.1 = i <;> simp [coefficient, List.find?_cons, h]

theorem coefficient_zero_of_not_mem (L : List (Nat × ℚ)) (r : Relation) (val : ℚ)
    (i : Nat) (h : i ∉ L.map Prod.fst) :
    coefficient ⟨L, r, val⟩ i = 0 := by
  induction L with
  | nil => rfl
  | cons a L ih =>
    rw [coefficient_cons]
    have h1 : a.1 ≠ i := by
      intro he; exact h (List.mem_map.mpr ⟨a, List.mem_cons_self a L, he⟩)
    rw [if_neg h1]
    exact ih (fun hm => h (List.mem_cons_of_mem _ (by simpa using hm)))

theorem coefficient_append_right (L1 L2 : List (Nat × ℚ)) (r : Relation) (val : ℚ)
    (i : Nat) (h : i ∉ L1.map Prod.fst) :
    coefficient ⟨L1 ++ L2, r, val⟩ i = coefficient ⟨L2, r, val⟩ i := by
  induction L1 with
  | nil => rfl
  | cons a L1 ih =>
    have h1 : a.1 ≠ i := by
      intro he; exact h (List.mem_map.mpr ⟨a, List.mem_cons_self a L1, he⟩)
    rw [List.cons_append, coefficient_cons, if_neg h1]
    exact ih (fun hm => h (List.mem_cons_of_mem _ (by simpa using hm)))

theorem coefficient_map_const {α : Type} (l : List α) (f : α → Nat) (w : ℚ)
    (rest : List (Nat × ℚ)) (r : Relation) (val : ℚ) (a : α) (ha : a ∈ l) :
    coefficient ⟨l.map (fun b => (f b, w)) ++ rest, r, val⟩ (f a) = w := by
  induction l with
  | nil => cases ha
  | cons b l ih =>
    rw [List.map_cons, List.cons_append, coefficient_cons]
    by_cases h : f b = f a
    · simp [h]
    · rw [if_neg h]
      rcases List.mem_cons.mp ha with rfl | ha'
      · exact absurd rfl h
      · exact ih ha'

/-- The left-hand side of a constraint with an explicit coefficient list of the
shape produced for a positive-fan-in node. -/
theorem lhs_fanin_shape (nv av : Nat) (k w : ℚ) {α : Type} (l : List α) (f : α → Nat)
    (r : Relation) (val : ℚ) (x : Nat → ℚ) :
    lhs ⟨(nv, k) :: l.map (fun e => (f e, -1)) ++ [(av, w)], r, val⟩ x
      = k * x nv - (l.map (fun e => x (f e))).sum + w * x av := by
  have h : ∀ t : List α,
      ((t.map (fun e => (f e, -1))).map (fun p : Nat × ℚ => p.2 * x p.1)).sum
        = -((t.map (fun e => x (f e))).sum) := by
    intro t
    induction t with
    | nil => simp
    | cons b t ih => simp only [List.map_cons, List.sum_cons, ih]; ring
  rw [lhs]
  simp only [List.map_cons, List.map_append, List.sum_cons, List.sum_append, h]
  simp only [List.map_cons, List.map_nil, List.sum_cons, List.sum_nil]
  ring

theorem satisfiedBy_lessEqual (c : LinearConstraint) (x : Nat → ℚ)
    (h : c.relation = Relation.LessEqual) :
    (c.satisfiedBy x = true) ↔ c.lhs x ≤ c.value := by
  simp [satisfiedBy, h, Relation.holds]

theorem satisfiedBy_greaterEqual (c : LinearConstraint) (x : Nat → ℚ)
    (h : c.relation = Relation.GreaterEqual) :
    (c.satisfiedBy x = true) ↔ c.value ≤ c.lhs x := by
  simp [satisfiedBy, h, Relation.holds]

theorem satisfiedBy_equal (c : LinearConstraint) (x : Nat → ℚ)
    (h : c.relation = Relation.Equal) :
    (c.satisfiedBy x = true) ↔ c.lhs x = c.value := by
  simp [satisfiedBy, h, Relation.holds]

theorem set_coefficient_ne_nil (c : LinearConstraint) (i : Nat) (v : ℚ) :
    (c.set_coefficient i v).coefficients ≠ [] := by
  by_cases hany : c.coefficients.any (fun p => p.1 == i) = true
  · rw [set_coefficient, if_pos hany]
    intro h
    simp only [List.map_eq_nil_iff] at h
    rw [h] at hany
    simp at hany
  · rw [set_coefficient, if_neg hany]
    simp

theorem allNonzero_set_coefficient (c : LinearConstraint) (i : Nat) (v : ℚ)
    (hv : v ≠ 0) (hc : ∀ p ∈ c.coefficients, p.2 ≠ 0) :
    ∀ p ∈ (c.set_coefficient i v).coefficients, p.2 ≠ 0 := by
  by_cases hany : c.coefficients.any (fun p => p.1 == i) = true
  · rw [set_coefficient, if_pos hany]
    intro p hp
    simp only [List.mem_map] at hp
    obtain ⟨q, hq, rfl⟩ := hp
    by_cases hqi : q.1 == i
    · simp only [hqi, if_pos]
      exact hv
    · simp only [hqi]
      simp only [Bool.false_eq_true, if_false]
      exact hc q hq
  · rw [set_coefficient, if_neg hany]
    intro p hp
    rcases List.mem_append.mp hp with h | h
    · exact hc p h
    · have : p = (i, v) := by simpa using h
      rw [this]
      exact hv

theorem allNonzero_foldl_set_coefficient {α : Type} (f : α → Nat) (w : ℚ) (hw : w ≠ 0) :
    ∀ (es : List α) (c : LinearConstraint), (∀ p ∈ c.coefficients, p.2 ≠ 0) →
      ∀ p ∈ (es.foldl (fun c e => c.set_coefficient (f e) w) c).coefficients, p.2 ≠ 0
  | [], _, hc => hc
  | e :: es, c, hc => by
    rw [List.foldl_cons]
    exact allNonzero_foldl_set_coefficient f w hw es _
      (allNonzero_set_coefficient c (f e) w hw hc)

end LinearConstraint

/-! ### Sums of binary (0/1) lists -/

theorem binary_sum_nonneg : ∀ l : List ℚ, (∀ v ∈ l, v = 0 ∨ v = 1) → 0 ≤ l.sum
  | [], _ => le_refl 0
  | a :: l, h => by
    have ha := h a (List.mem_cons_self a l)
    have hl := binary_sum_nonneg l (fun v hv => h v (List.mem_cons_of_mem a hv))
    rcases ha with rfl | rfl <;> simp <;> linarith

theorem binary_sum_le_length : ∀ l : List ℚ, (∀ v ∈ l, v = 0 ∨ v = 1) →
    l.sum ≤ (l.length : ℚ)
  | [], _ => by simp
  | a :: l, h => by
    have ha := h a (List.mem_cons_self a l)
    have hl := binary_sum_le_length l (fun v hv => h v (List.mem_cons_of_mem a hv))
    rcases ha with rfl | rfl <;> simp <;> linarith

theorem binary_sum_eq_zero_iff : ∀ l : List ℚ, (∀ v ∈ l, v = 0 ∨ v = 1) →
    (l.sum = 0 ↔ ∀ v ∈ l, v = 0)
  | [], _ => by simp
  | a :: l, h => by
    have ha := h a (List.mem_cons_self a l)
    have h0 := binary_sum_nonneg l (fun v hv => h v (List.mem_cons_of_mem a hv))
    have hl := binary_sum_eq_zero_iff l (fun v hv => h v (List.mem_cons_of_mem a hv))
    constructor
    · intro hs
      rcases ha with rfl | rfl
      · simp only [List.sum_cons, zero_add] at hs
        intro v hv
        rcases List.mem_cons.mp hv with rfl | hv'
        · rfl
        · exact (hl.mp hs) v hv'
      · exfalso
        simp only [List.sum_cons] at hs
        linarith
    · intro hz
      simp only [List.sum_cons]
      rw [hz a (List.mem_cons_self a l),
        hl.mpr (fun v hv => hz v (List.mem_cons_of_mem a hv))]
      ring

theorem binary_sum_zero_or_one_le : ∀ l : List ℚ, (∀ v ∈ l, v = 0 ∨ v = 1) →
    (l.sum = 0 ∨ 1 ≤ l.sum)
  | [], _ => Or.inl rfl
  | a :: l, h => by
    have ha := h a (List.mem_cons_self a l)
    have h0 := binary_sum_nonneg l (fun v hv => h v (List.mem_cons_of_mem a hv))
    have hl := binary_sum_zero_or_one_le l (fun v hv => h v (List.mem_cons_of_mem a hv))
    simp only [List.sum_cons]
    rcases ha with rfl | rfl
    · rcases hl with h1 | h1
      · left; rw [h1]; ring
      · right; linarith
    · right; linarith

/-- The arithmetic heart of the positive-fan-in derivation: for binary
`xv` and `a`, and `S` the (binary-valued) sum of the incoming-edge
indicators, the two inequalities `k·xv − S − a ≤ k − 1` and
`k·xv − S − k·a ≥ 0` hold together exactly when `a` indicates
`xv = 1 ∧ S = 0` and additionally `xv = 1 ∨ S = 0`. -/
theorem two_fanin_inequalities_iff (k S a xv : ℚ) (hk : 1 ≤ k)
    (hxv : xv = 0 ∨ xv = 1) (ha : a = 0 ∨ a = 1) (hS0 : 0 ≤ S) (hSk : S ≤ k)
    (hS1 : S = 0 ∨ 1 ≤ S) :
    (k * xv - S - a ≤ k - 1 ∧ 0 ≤ k * xv - S - k * a) ↔
      (a = (if xv = 1 ∧ S = 0 then 1 else 0) ∧ (xv = 1 ∨ S = 0)) := by
  rcases hxv with rfl | rfl <;> rcases ha with rfl | rfl
  · constructor
    · intro ⟨h1, h2⟩
      have hS : S = 0 := by linarith
      subst hS
      norm_num
    · intro ⟨h1, h2⟩
      have hS : S = 0 := by
        rcases h2 with h2 | h2
        · exact absurd h2 (by norm_num)
        · exact h2
      subst hS
      constructor <;> linarith
  · constructor
    · intro ⟨h1, h2⟩
      exfalso; linarith
    · intro ⟨h1, h2⟩
      exfalso
      rw [if_neg (by norm_num)] at h1
      exact absurd h1 (by norm_num)
  · constructor
    · intro ⟨h1, h2⟩
      have hS : ¬(S = 0) := by intro h; rw [h] at h1; linarith
      rw [if_neg (by simp [hS])]
      exact ⟨rfl, Or.inl rfl⟩
    · intro ⟨h1, h2⟩
      have hS : ¬(S = 0) := by
        intro h
        rw [if_pos ⟨rfl, h⟩] at h1
        exact absurd h1 (by norm_num)
      have h1S : 1 ≤ S := by
        rcases hS1 with h | h
        · exact absurd h hS
        · exact h
      constructor <;> linarith
  · constructor
    · intro ⟨h1, h2⟩
      have hS : S = 0 := by linarith
      rw [if_pos ⟨rfl, hS⟩]
      exact ⟨rfl, Or.inl rfl⟩
    · intro ⟨h1, h2⟩
      have hS : S = 0 := by
        by_contra hS
        rw [if_neg (by simp [hS])] at h1
        exact absurd h1 (by norm_num)
      subst hS
      constructor <;> linarith

/-! ### Shape of the constraints produced by `NodeAppear` -/

theorem LinearConstraint.ext_mk (c : LinearConstraint) (L : List (Nat × ℚ)) (r : Relation)
    (v : ℚ) (h1 : c.coefficients = L) (h2 : c.relation = r) (h3 : c.value = v) :
    c = ⟨L, r, v⟩ := by
  cases c
  simp only at h1 h2 h3
  rw [h1, h2, h3]

namespace NodeAppear

theorem fanin_base_coefficients (s : Solver) (v : NodeId)
    (hnd : ((s.graph.prev_edges v).map s.edgeSelectedIdx).Nodup)
    (hn : s.nodeSelectedIdx v ∉ (s.graph.prev_edges v).map s.edgeSelectedIdx) :
    ((s.graph.prev_edges v).foldl
        (fun c e => c.set_coefficient (s.edgeSelectedIdx e) (-1))
        (({} : LinearConstraint).set_coefficient (s.nodeSelectedIdx v)
          ((s.graph.prev_edges v).length : ℚ))).coefficients
      = (s.nodeSelectedIdx v, ((s.graph.prev_edges v).length : ℚ))
          :: (s.graph.prev_edges v).map (fun e => (s.edgeSelectedIdx e, -1)) := by
  have hinit : (({} : LinearConstraint).set_coefficient (s.nodeSelectedIdx v)
      ((s.graph.prev_edges v).length : ℚ)).coefficients
      = [(s.nodeSelectedIdx v, ((s.graph.prev_edges v).length : ℚ))] := by
    rw [LinearConstraint.coefficients_set_coefficient_of_not_mem]
    · rfl
    · simp [LinearConstraint.keys]
  have hkeys : (({} : LinearConstraint).set_coefficient (s.nodeSelectedIdx v)
      ((s.graph.prev_edges v).length : ℚ)).keys = [s.nodeSelectedIdx v] := by
    rw [LinearConstraint.keys, hinit]
    rfl
  have hdisj : ∀ e ∈ s.graph.prev_edges v, s.edgeSelectedIdx e ∉
      (({} : LinearConstraint).set_coefficient (s.nodeSelectedIdx v)
        ((s.graph.prev_edges v).length : ℚ)).keys := by
    intro e he
    rw [hkeys]
    simp only [List.mem_singleton]
    intro hcontra
    exact hn (hcontra ▸ List.mem_map_of_mem _ he)
  rw [LinearConstraint.foldl_set_coefficient_coefficients _ _ _ _ hnd hdisj, hinit]
  simp

theorem fanin_base_keys (s : Solver) (v : NodeId)
    (hnd : ((s.graph.prev_edges v).map s.edgeSelectedIdx).Nodup)
    (hn : s.nodeSelectedIdx v ∉ (s.graph.prev_edges v).map s.edgeSelectedIdx) :
    ((s.graph.prev_edges v).foldl
        (fun c e => c.set_coefficient (s.edgeSelectedIdx e) (-1))
        (({} : LinearConstraint).set_coefficient (s.nodeSelectedIdx v)
          ((s.graph.prev_edges v).length : ℚ))).keys
      = s.nodeSelectedIdx v :: (s.graph.prev_edges v).map s.edgeSelectedIdx := by
  rw [LinearConstraint.keys, fanin_base_coefficients s v hnd hn]
  simp

/-- The exact pair of constraints the positive-fan-in branch of
`instantiate_constraints` yields for a node, under the registry invariant
that the involved columns are pairwise distinct. -/
theorem fanin_constraints_eq (s : Solver) (v : NodeId)
    (hk : s.graph.prev_edges v ≠ [])
    (hnd : ((s.graph.prev_edges v).map s.edgeSelectedIdx).Nodup)
    (hn : s.nodeSelectedIdx v ∉ (s.graph.prev_edges v).map s.edgeSelectedIdx)
    (ha1 : s.nodeAppearIdx v ≠ s.nodeSelectedIdx v)
    (ha2 : s.nodeAppearIdx v ∉ (s.graph.prev_edges v).map s.edgeSelectedIdx) :
    constraintsForNode s v =
      [⟨(s.nodeSelectedIdx v, ((s.graph.prev_edges v).length : ℚ))
          :: (s.graph.prev_edges v).map (fun e => (s.edgeSelectedIdx e, -1))
          ++ [(s.nodeAppearIdx v, -1)],
        Relation.LessEqual, ((s.graph.prev_edges v).length : ℚ) - 1⟩,
       ⟨(s.nodeSelectedIdx v, ((s.graph.prev_edges v).length : ℚ))
          :: (s.graph.prev_edges v).map (fun e => (s.edgeSelectedIdx e, -1))
          ++ [(s.nodeAppearIdx v, -((s.graph.prev_edges v).length : ℚ))],
        Relation.GreaterEqual, 0⟩] := by
  have hlen : ¬((s.graph.prev_edges v).length = 0) := by
    intro h
    exact hk (List.length_eq_zero.mp h)
  have hav : s.nodeAppearIdx v ∉ ((s.graph.prev_edges v).foldl
      (fun c e => c.set_coefficient (s.edgeSelectedIdx e) (-1))
      (({} : LinearConstraint).set_coefficient (s.nodeSelectedIdx v)
        ((s.graph.prev_edges v).length : ℚ))).keys := by
    rw [fanin_base_keys s v hnd hn]
    simp only [List.mem_cons]
    intro hcontra
    rcases hcontra with h | h
    · exact ha1 h
    · exact ha2 h
  simp only [constraintsForNode]
  rw [if_neg hlen]
  congr 1
  · apply LinearConstraint.ext_mk
    · rw [LinearConstraint.coefficients_set_value, LinearConstraint.coefficients_set_relation,
        LinearConstraint.coefficients_set_coefficient_of_not_mem _ _ _ hav,
        fanin_base_coefficients s v hnd hn]
    · rfl
    · rfl
  congr 1
  apply LinearConstraint.ext_mk
  · rw [LinearConstraint.coefficients_set_value, LinearConstraint.coefficients_set_relation,
      LinearConstraint.coefficients_set_coefficient_of_not_mem _ _ _ hav,
      fanin_base_coefficients s v hnd hn]
  · rfl
  · rfl

/-- The single equality constraint the zero-fan-in branch of
`instantiate_constraints` yields for a node. -/
theorem zero_fanin_constraint_eq (s : Solver) (v : NodeId)
    (h0 : s.graph.prev_edges v = [])
    (hne : s.nodeAppearIdx v ≠ s.nodeSelectedIdx v) :
    constraintsForNode s v =
      [⟨[(s.nodeSelectedIdx v, 1), (s.nodeAppearIdx v, -1)], Relation.Equal, 0⟩] := by
  have hinit : (({} : LinearConstraint).set_coefficient (s.nodeSelectedIdx v)
      1).coefficients = [(s.nodeSelectedIdx v, 1)] := by
    rw [LinearConstraint.coefficients_set_coefficient_of_not_mem]
    · rfl
    · simp [LinearConstraint.keys]
  have hkeys : (({} : LinearConstraint).set_coefficient (s.nodeSelectedIdx v) 1).keys
      = [s.nodeSelectedIdx v] := by
    rw [LinearConstraint.keys, hinit]
    rfl
  have hav : s.nodeAppearIdx v ∉
      (({} : LinearConstraint).set_coefficient (s.nodeSelectedIdx v) 1).keys := by
    rw [hkeys]
    simpa using hne
  simp only [constraintsForNode, h0, List.length_nil]
  rw [if_pos trivial]
  congr 1
  apply LinearConstraint.ext_mk
  · rw [LinearConstraint.coefficients_set_value, LinearConstraint.coefficients_set_relation,
      LinearConstraint.coefficients_set_coefficient_of_not_mem _ _ _ hav, hinit]
    rfl
  · rfl
  · rfl

/-- Claim C1, amended.  For a node `v` with `k ≥ 1` incoming edges, distinct
columns for its indicators, and binary values of `x_v`, the incoming-edge
indicators and `a_v`: the two constraints yielded for `v` by
`instantiate_constraints` are both satisfied iff `a_v` equals `1` exactly when
`x_v = 1` and all incoming-edge indicators are `0`, and additionally
`x_v = 1` or all incoming-edge indicators are `0`.  In particular, for
assignments with `x_v = 0` and some incoming edge selected, no binary value
of `a_v` is feasible; for every other assignment the feasible `a_v` is unique
and equals `1` iff `x_v = 1` and all incoming-edge indicators are `0`. -/
theorem fanin_feasibility_characterization (s : Solver) (v : NodeId) (x : Nat → ℚ)
    (hk : s.graph.prev_edges v ≠ [])
    (hnd : ((s.graph.prev_edges v).map s.edgeSelectedIdx).Nodup)
    (hn : s.nodeSelectedIdx v ∉ (s.graph.prev_edges v).map s.edgeSelectedIdx)
    (ha1 : s.nodeAppearIdx v ≠ s.nodeSelectedIdx v)
    (ha2 : s.nodeAppearIdx v ∉ (s.graph.prev_edges v).map s.edgeSelectedIdx)
    (hxv : x (s.nodeSelectedIdx v) = 0 ∨ x (s.nodeSelectedIdx v) = 1)
    (hav : x (s.nodeAppearIdx v) = 0 ∨ x (s.nodeAppearIdx v) = 1)
    (he : ∀ e ∈ s.graph.prev_edges v,
      x (s.edgeSelectedIdx e) = 0 ∨ x (s.edgeSelectedIdx e) = 1) :
    ((constraintsForNode s v).all fun c => c.satisfiedBy x) = true ↔
      (x (s.nodeAppearIdx v) =
          (if x (s.nodeSelectedIdx v) = 1
              ∧ (∀ e ∈ s.graph.prev_edges v, x (s.edgeSelectedIdx e) = 0)
            then 1 else 0)
        ∧ (x (s.nodeSelectedIdx v) = 1
            ∨ ∀ e ∈ s.graph.prev_edges v, x (s.edgeSelectedIdx e) = 0)) := by
  have hbin : ∀ w ∈ (s.graph.prev_edges v).map (fun e => x (s.edgeSelectedIdx e)),
      w = 0 ∨ w = 1 := by
    intro w hw
    obtain ⟨e, hemem, rfl⟩ := List.mem_map.mp hw
    exact he e hemem
  have hS0 : 0 ≤ ((s.graph.prev_edges v).map (fun e => x (s.edgeSelectedIdx e))).sum :=
    binary_sum_nonneg _ hbin
  have hSk : ((s.graph.prev_edges v).map (fun e => x (s.edgeSelectedIdx e))).sum
      ≤ ((s.graph.prev_edges v).length : ℚ) := by
    have h := binary_sum_le_length _ hbin
    rwa [List.length_map] at h
  have hS1 : ((s.graph.prev_edges v).map (fun e => x (s.edgeSelectedIdx e))).sum = 0
      ∨ 1 ≤ ((s.graph.prev_edges v).map (fun e => x (s.edgeSelectedIdx e))).sum :=
    binary_sum_zero_or_one_le _ hbin
  have hk1 : (1 : ℚ) ≤ ((s.graph.prev_edges v).length : ℚ) := by
    have : 1 ≤ (s.graph.prev_edges v).length := List.length_pos.mpr hk
    exact_mod_cast this
  have hSzero : ((s.graph.prev_edges v).map (fun e => x (s.edgeSelectedIdx e))).sum = 0
      ↔ ∀ e ∈ s.graph.prev_edges v, x (s.edgeSelectedIdx e) = 0 := by
    rw [binary_sum_eq_zero_iff _ hbin]
    constructor
    · intro h e hemem
      exact h _ (List.mem_map_of_mem _ hemem)
    · intro h w hw
      obtain ⟨e, hemem, rfl⟩ := List.mem_map.mp hw
      exact h e hemem
  rw [fanin_constraints_eq s v hk hnd hn ha1 ha2]
  simp only [List.all_cons, List.all_nil, Bool.and_true, Bool.and_eq_true]
  rw [LinearConstraint.satisfiedBy_lessEqual _ _ rfl,
    LinearConstraint.satisfiedBy_greaterEqual _ _ rfl,
    LinearConstraint.lhs_fanin_shape, LinearConstraint.lhs_fanin_shape]
  simp only [← hSzero]
  have key := two_fanin_inequalities_iff ((s.graph.prev_edges v).length : ℚ)
    (((s.graph.prev_edges v).map (fun e => x (s.edgeSelectedIdx e))).sum)
    (x (s.nodeAppearIdx v)) (x (s.nodeSelectedIdx v)) hk1 hxv hav hS0 hSk hS1
  constructor
  · intro ⟨h1, h2⟩
    exact key.mp ⟨by linarith, by linarith⟩
  · intro h
    obtain ⟨h1, h2⟩ := key.mpr h
    exact ⟨by linarith, by linarith⟩

/-- Claim C2.  A node with zero incoming edges gets exactly one constraint:
coefficient `1` on its selection indicator, `-1` on its appear indicator, no
other coefficient, relation `=`, right-hand side `0`; this constraint holds
for an assignment exactly when the appear indicator equals the selection
indicator. -/
theorem zero_fanin_equality (s : Solver) (v : NodeId)
    (h0 : s.graph.prev_edges v = [])
    (hne : s.nodeAppearIdx v ≠ s.nodeSelectedIdx v) :
    ∃ c, constraintsForNode s v = [c]
      ∧ c.coefficient (s.nodeSelectedIdx v) = 1
      ∧ c.coefficient (s.nodeAppearIdx v) = -1
      ∧ (∀ i, i ≠ s.nodeSelectedIdx v → i ≠ s.nodeAppearIdx v → c.coefficient i = 0)
      ∧ c.relation = Relation.Equal
      ∧ c.value = 0
      ∧ ∀ x : Nat → ℚ,
          (c.satisfiedBy x = true ↔ x (s.nodeAppearIdx v) = x (s.nodeSelectedIdx v)) := by
  refine ⟨_, zero_fanin_constraint_eq s v h0 hne, ?_, ?_, ?_, rfl, rfl, ?_⟩
  · rw [LinearConstraint.coefficient_cons]
    simp
  · rw [LinearConstraint.coefficient_cons, if_neg (fun h => hne h.symm),
      LinearConstraint.coefficient_cons]
    simp
  · intro i h1 h2
    rw [LinearConstraint.coefficient_cons, if_neg (fun h => h1 h.symm),
      LinearConstraint.coefficient_cons, if_neg (fun h => h2 h.symm),
      LinearConstraint.coefficient_nil]
  · intro x
    rw [LinearConstraint.satisfiedBy_equal _ _ rfl]
    simp only [LinearConstraint.lhs, List.map_cons, List.map_nil, List.sum_cons,
      List.sum_nil]
    constructor
    · intro h
      linarith
    · intro h
      rw [h]
      ring

/-- Claim C3.  A node with `k ≥ 1` incoming edges gets exactly two
constraints: both with coefficient `k` on the selection indicator and `-1` on
every incoming-edge indicator; the first with `-1` on the appear indicator,
relation `≤` and right-hand side `k − 1`; the second with `-k` on the appear
indicator, relation `≥` and right-hand side `0`; neither has any other
coefficient — the fan-in `k` itself is the only bounding constant. -/
theorem fanin_constraint_shapes (s : Solver) (v : NodeId)
    (hk : s.graph.prev_edges v ≠ [])
    (hnd : ((s.graph.prev_edges v).map s.edgeSelectedIdx).Nodup)
    (hn : s.nodeSelectedIdx v ∉ (s.graph.prev_edges v).map s.edgeSelectedIdx)
    (ha1 : s.nodeAppearIdx v ≠ s.nodeSelectedIdx v)
    (ha2 : s.nodeAppearIdx v ∉ (s.graph.prev_edges v).map s.edgeSelectedIdx) :
    ∃ c1 c2, constraintsForNode s v = [c1, c2]
      ∧ c1.coefficient (s.nodeSelectedIdx v) = ((s.graph.prev_edges v).length : ℚ)
      ∧ (∀ e ∈ s.graph.prev_edges v, c1.coefficient (s.edgeSelectedIdx e) = -1)
      ∧ c1.coefficient (s.nodeAppearIdx v) = -1
      ∧ (∀ i, i ≠ s.nodeSelectedIdx v →
          i ∉ (s.graph.prev_edges v).map s.edgeSelectedIdx →
          i ≠ s.nodeAppearIdx v → c1.coefficient i = 0)
      ∧ c1.relation = Relation.LessEqual
      ∧ c1.value = ((s.graph.prev_edges v).length : ℚ) - 1
      ∧ c2.coefficient (s.nodeSelectedIdx v) = ((s.graph.prev_edges v).length : ℚ)
      ∧ (∀ e ∈ s.graph.prev_edges v, c2.coefficient (s.edgeSelectedIdx e) = -1)
      ∧ c2.coefficient (s.nodeAppearIdx v) = -((s.graph.prev_edges v).length : ℚ)
      ∧ (∀ i, i ≠ s.nodeSelectedIdx v →
          i ∉ (s.graph.prev_edges v).map s.edgeSelectedIdx →
          i ≠ s.nodeAppearIdx v → c2.coefficient i = 0)
      ∧ c2.relation = Relation.GreaterEqual
      ∧ c2.value = 0 := by
  have hedge_ne : ∀ e ∈ s.graph.prev_edges v, s.nodeSelectedIdx v ≠ s.edgeSelectedIdx e := by
    intro e hemem heq
    exact hn (heq ▸ List.mem_map_of_mem _ hemem)
  have hfst : ∀ i, i ∉ (s.graph.prev_edges v).map s.edgeSelectedIdx →
      i ∉ ((s.graph.prev_edges v).map
        (fun e => (s.edgeSelectedIdx e, (-1 : ℚ)))).map Prod.fst := by
    intro i h
    simpa [List.map_map, Function.comp] using h
  refine ⟨_, _, fanin_constraints_eq s v hk hnd hn ha1 ha2,
    ?_, ?_, ?_, ?_, rfl, rfl, ?_, ?_, ?_, ?_, rfl, rfl⟩
  · simp only [List.cons_append]
    rw [LinearConstraint.coefficient_cons]
    simp
  · intro e hemem
    simp only [List.cons_append]
    rw [LinearConstraint.coefficient_cons, if_neg (hedge_ne e hemem)]
    exact LinearConstraint.coefficient_map_const _ _ _ _ _ _ e hemem
  · simp only [List.cons_append]
    rw [LinearConstraint.coefficient_cons, if_neg (fun h => ha1 h.symm),
      LinearConstraint.coefficient_append_right _ _ _ _ _ (hfst _ ha2),
      LinearConstraint.coefficient_cons]
    simp
  · intro i h1 h2 h3
    simp only [List.cons_append]
    rw [LinearConstraint.coefficient_cons, if_neg (fun h => h1 h.symm),
      LinearConstraint.coefficient_append_right _ _ _ _ _ (hfst _ h2),
      LinearConstraint.coefficient_cons, if_neg (fun h => h3 h.symm),
      LinearConstraint.coefficient_nil]
  · simp only [List.cons_append]
    rw [LinearConstraint.coefficient_cons]
    simp
  · intro e hemem
    simp only [List.cons_append]
    rw [LinearConstraint.coefficient_cons, if_neg (hedge_ne e hemem)]
    exact LinearConstraint.coefficient_map_const _ _ _ _ _ _ e hemem
  · simp only [List.cons_append]
    rw [LinearConstraint.coefficient_cons, if_neg (fun h => ha1 h.symm),
      LinearConstraint.coefficient_append_right _ _ _ _ _ (hfst _ ha2),
      LinearConstraint.coefficient_cons]
    simp
  · intro i h1 h2 h3
    simp only [List.cons_append]
    rw [LinearConstraint.coefficient_cons, if_neg (fun h => h1 h.symm),
      LinearConstraint.coefficient_append_right _ _ _ _ _ (hfst _ h2),
      LinearConstraint.coefficient_cons, if_neg (fun h => h3 h.symm),
      LinearConstraint.coefficient_nil]

/-- Claim C1, counterexample.  Node `1` of the chain context has one
incoming edge, yet for the binary assignment `x_v = 0`, `e_1 = 1` neither
`a_v = 0` nor `a_v = 1` satisfies both yielded constraints: no feasible
binary appear value exists for this assignment, contradicting the claim that
every one of the `2^(k+1)` assignments admits a unique feasible one. -/
theorem fanin_claim_counterexample :
    ((constraintsForNode chainSolver 1).all fun c =>
        c.satisfiedBy (chainLiteralAssignment 1 0 0)) = false
    ∧ ((constraintsForNode chainSolver 1).all fun c =>
        c.satisfiedBy (chainLiteralAssignment 1 1 0)) = false := by
  constructor <;>
    simp [constraintsForNode, chainSolver, chainGraph, chainLiteralAssignment,
      LinearConstraint.set_coefficient, LinearConstraint.set_relation,
      LinearConstraint.set_value, LinearConstraint.satisfiedBy,
      LinearConstraint.lhs, Relation.holds]

/-- Witness for the amended claim C1, at node `1` of the chain context under
the assignment selecting both endpoints and the edge. -/
theorem fanin_feasibility_witness :
    ((constraintsForNode chainSolver 1).all fun c =>
        c.satisfiedBy (chainAssignment 1 0 0)) = true ↔
      (chainAssignment 1 0 0 (chainSolver.nodeAppearIdx 1) =
          (if chainAssignment 1 0 0 (chainSolver.nodeSelectedIdx 1) = 1
              ∧ (∀ e ∈ chainSolver.graph.prev_edges 1,
                chainAssignment 1 0 0 (chainSolver.edgeSelectedIdx e) = 0)
            then 1 else 0)
        ∧ (chainAssignment 1 0 0 (chainSolver.nodeSelectedIdx 1) = 1
            ∨ ∀ e ∈ chainSolver.graph.prev_edges 1,
              chainAssignment 1 0 0 (chainSolver.edgeSelectedIdx e) = 0)) :=
  fanin_feasibility_characterization chainSolver 1 (chainAssignment 1 0 0)
    (by decide) (by decide) (by decide) (by decide) (by decide) (by decide)
    (by decide) (by decide)

/-- Witness for claim C2, at node `0` of the chain context (no incoming
edges). -/
theorem zero_fanin_witness :
    ∃ c, constraintsForNode chainSolver 0 = [c]
      ∧ c.coefficient (chainSolver.nodeSelectedIdx 0) = 1
      ∧ c.coefficient (chainSolver.nodeAppearIdx 0) = -1
      ∧ (∀ i, i ≠ chainSolver.nodeSelectedIdx 0 → i ≠ chainSolver.nodeAppearIdx 0 →
          c.coefficient i = 0)
      ∧ c.relation = Relation.Equal
      ∧ c.value = 0
      ∧ ∀ x : Nat → ℚ,
          (c.satisfiedBy x = true ↔
            x (chainSolver.nodeAppearIdx 0) = x (chainSolver.nodeSelectedIdx 0)) :=
  zero_fanin_equality chainSolver 0 (by decide) (by decide)

/-- Witness for claim C3, at node `1` of the chain context (one incoming
edge). -/
theorem fanin_shapes_witness :
    ∃ c1 c2, constraintsForNode chainSolver 1 = [c1, c2]
      ∧ c1.coefficient (chainSolver.nodeSelectedIdx 1)
          = ((chainSolver.graph.prev_edges 1).length : ℚ)
      ∧ (∀ e ∈ chainSolver.graph.prev_edges 1,
          c1.coefficient (chainSolver.edgeSelectedIdx e) = -1)
      ∧ c1.coefficient (chainSolver.nodeAppearIdx 1) = -1
      ∧ (∀ i, i ≠ chainSolver.nodeSelectedIdx 1 →
          i ∉ (chainSolver.graph.prev_edges 1).map chainSolver.edgeSelectedIdx →
          i ≠ chainSolver.nodeAppearIdx 1 → c1.coefficient i = 0)
      ∧ c1.relation = Relation.LessEqual
      ∧ c1.value = ((chainSolver.graph.prev_edges 1).length : ℚ) - 1
      ∧ c2.coefficient (chainSolver.nodeSelectedIdx 1)
          = ((chainSolver.graph.prev_edges 1).length : ℚ)
      ∧ (∀ e ∈ chainSolver.graph.prev_edges 1,
          c2.coefficient (chainSolver.edgeSelectedIdx e) = -1)
      ∧ c2.coefficient (chainSolver.nodeAppearIdx 1)
          = -((chainSolver.graph.prev_edges 1).length : ℚ)
      ∧ (∀ i, i ≠ chainSolver.nodeSelectedIdx 1 →
          i ∉ (chainSolver.graph.prev_edges 1).map chainSolver.edgeSelectedIdx →
          i ≠ chainSolver.nodeAppearIdx 1 → c2.coefficient i = 0)
      ∧ c2.relation = Relation.GreaterEqual
      ∧ c2.value = 0 :=
  fanin_constraint_shapes chainSolver 1 (by decide) (by decide) (by decide)
    (by decide) (by decide)

/-- Claim C8.  `instantiate` returns exactly the graph's node collection, is
deterministic, and depends only on the input graph: any solver context with
the same graph yields the same collection. -/
theorem instantiate_returns_nodes (s : Solver) :
    instantiate s = s.graph.nodes
    ∧ ∀ t : Solver, t.graph = s.graph → instantiate t = instantiate s := by
  refine ⟨rfl, ?_⟩
  intro t h
  rw [instantiate, instantiate, h]

/-- Witness for claim C8: the chain context, and a second context sharing its
graph but differing in objective state. -/
theorem instantiate_witness :
    instantiate chainSolver = chainSolver.graph.nodes
    ∧ instantiate chainSolverAlt = instantiate chainSolver :=
  ⟨(instantiate_returns_nodes chainSolver).1,
    (instantiate_returns_nodes chainSolver).2 chainSolverAlt rfl⟩

/-- Claim C9.  Every constraint yielded by `instantiate_constraints` has a
nonzero coefficient entry; no empty-coefficient constraint is ever emitted,
for any solver context. -/
theorem constraints_never_empty (s : Solver) :
    ∀ c ∈ instantiate_constraints s, ∃ p ∈ c.coefficients, p.2 ≠ 0 := by
  intro c hc
  rw [instantiate_constraints] at hc
  obtain ⟨v, _, hcv⟩ := List.mem_flatMap.mp hc
  have hembed : ∀ (d : LinearConstraint), d.coefficients ≠ [] →
      (∀ p ∈ d.coefficients, p.2 ≠ 0) → ∃ p ∈ d.coefficients, p.2 ≠ 0 := by
    intro d hne hnz
    obtain ⟨p, hp⟩ := List.exists_mem_of_ne_nil _ hne
    exact ⟨p, hp, hnz p hp⟩
  simp only [constraintsForNode] at hcv
  split at hcv
  · rw [List.mem_singleton] at hcv
    subst hcv
    apply hembed
    · exact LinearConstraint.set_coefficient_ne_nil _ _ _
    · apply LinearConstraint.allNonzero_set_coefficient _ _ _ (by norm_num)
      apply LinearConstraint.allNonzero_set_coefficient _ _ _ (by norm_num)
      simp
  · rename_i hlen
    have hklen : ((s.graph.prev_edges v).length : ℚ) ≠ 0 := Nat.cast_ne_zero.mpr hlen
    rcases List.mem_cons.mp hcv with rfl | hcv2
    · apply hembed
      · exact LinearConstraint.set_coefficient_ne_nil _ _ _
      · apply LinearConstraint.allNonzero_set_coefficient _ _ _ (by norm_num)
        apply LinearConstraint.allNonzero_foldl_set_coefficient _ _ (by norm_num)
        apply LinearConstraint.allNonzero_set_coefficient _ _ _ hklen
        simp
    · rw [List.mem_singleton] at hcv2
      subst hcv2
      apply hembed
      · exact LinearConstraint.set_coefficient_ne_nil _ _ _
      · apply LinearConstraint.allNonzero_set_coefficient _ _ _ (neg_ne_zero.mpr hklen)
        apply LinearConstraint.allNonzero_foldl_set_coefficient _ _ (by norm_num)
        apply LinearConstraint.allNonzero_set_coefficient _ _ _ hklen
        simp

/-- Witness for claim C9: the zero-fan-in constraint of node `0` in the chain
context. -/
theorem constraints_nonempty_witness :
    ∃ p ∈ ((⟨[(0, 1), (5, -1)], Relation.Equal, 0⟩ : LinearConstraint)).coefficients,
      p.2 ≠ 0 :=
  constraints_never_empty chainSolver ⟨[(0, 1), (5, -1)], Relation.Equal, 0⟩ (by decide)

end NodeAppear

/-! ### Behaviour of the `NodeSelection` cost -/

theorem Solver.ext_fields (a b : Solver) (h1 : a.graph = b.graph)
    (h2 : a.nodeSelectedOrder = b.nodeSelectedOrder)
    (h3 : a.nodeSelectedIdx = b.nodeSelectedIdx)
    (h4 : a.edgeSelectedIdx = b.edgeSelectedIdx)
    (h5 : a.nodeAppearIdx = b.nodeAppearIdx)
    (h6 : a.objective = b.objective) (h7 : a.constraints = b.constraints) : a = b := by
  cases a
  cases b
  simp_all

namespace NodeSelection

theorem applyLoop_eq (c : NodeSelection) :
    ∀ (items : List (NodeId × Nat)) (s : Solver),
      (∀ p ∈ items, (s.graph.nodeAttrs p.1 c.attr).isSome = true) →
      applyLoop c s items =
        ({ s with objective :=
            fun i => s.objective i + nodeCostContributions c s.graph items i }, none)
  | [], s, _ => by
    have h : (fun i => s.objective i + nodeCostContributions c s.graph [] i)
        = s.objective := by
      funext i
      simp [nodeCostContributions]
    rw [applyLoop, h]
  | (node, index) :: rest, s, hall => by
    obtain ⟨v, hv⟩ := Option.isSome_iff_exists.mp
      (hall (node, index) (List.mem_cons_self _ _))
    rw [applyLoop, hv]
    show applyLoop c
        ((s.add_variable_cost index v c.weight).add_variable_cost index 1 c.constant)
        rest = _
    rw [applyLoop_eq c rest
      ((s.add_variable_cost index v c.weight).add_variable_cost index 1 c.constant)
      (fun p hp => hall p (List.mem_cons_of_mem _ hp))]
    congr 1
    refine Solver.ext_fields _ _ rfl rfl rfl rfl rfl ?_ rfl
    funext i
    simp only [Solver.add_variable_cost, nodeCostContributions, List.filter_cons]
    by_cases h : i = index
    · subst h
      simp only [if_pos rfl, beq_self_eq_true, if_true, List.map_cons, List.sum_cons,
        hv, Option.getD_some]
      ring
    · have hbeq : (index == i) = false := by
        simp only [beq_eq_false_iff_ne, ne_eq]
        exact fun hcontra => h hcontra.symm
      rw [if_neg h, if_neg h, hbeq]
      simp

theorem applyLoop_missing (c : NodeSelection) :
    ∀ (items : List (NodeId × Nat)) (s : Solver),
      (∃ p ∈ items, s.graph.nodeAttrs p.1 c.attr = none) →
      (applyLoop c s items).2 = some (PyError.keyError c.attr)
  | [], _, h => by
    obtain ⟨p, hp, _⟩ := h
    cases hp
  | (node, index) :: rest, s, h => by
    rcases hattr : s.graph.nodeAttrs node c.attr with _ | v
    · rw [applyLoop, hattr]
    · rw [applyLoop, hattr]
      show (applyLoop c
        ((s.add_variable_cost index v c.weight).add_variable_cost index 1 c.constant)
        rest).2 = _
      apply applyLoop_missing c rest
      obtain ⟨p, hp, hnone⟩ := h
      rcases List.mem_cons.mp hp with rfl | hp2
      · rw [hattr] at hnone
        cases hnone
      · exact ⟨p, hp2, hnone⟩

theorem applyLoop_append (c : NodeSelection) :
    ∀ (l1 l2 : List (NodeId × Nat)) (s : Solver),
      (∀ p ∈ l1, (s.graph.nodeAttrs p.1 c.attr).isSome = true) →
      applyLoop c s (l1 ++ l2) = applyLoop c (applyLoop c s l1).1 l2
  | [], l2, s, _ => by rw [List.nil_append, applyLoop]
  | (node, index) :: rest, l2, s, hall => by
    obtain ⟨v, hv⟩ := Option.isSome_iff_exists.mp
      (hall (node, index) (List.mem_cons_self _ _))
    rw [List.cons_append, applyLoop, hv, applyLoop, hv]
    show applyLoop c _ (rest ++ l2)
        = applyLoop c (applyLoop c
            ((s.add_variable_cost index v c.weight).add_variable_cost index 1
              c.constant) rest).1 l2
    exact applyLoop_append c rest l2 _ (fun p hp => hall p (List.mem_cons_of_mem _ hp))

end NodeSelection

/-- Items of the `NodeSelected` mapping restricted by column: with
pairwise-distinct columns, filtering the item list for the column of a member
node keeps exactly that node's item. -/
theorem filter_items_single (idx : NodeId → Nat) :
    ∀ (order : List NodeId) (n : NodeId), (order.map idx).Nodup → n ∈ order →
      (order.map (fun m => (m, idx m))).filter (fun p => p.2 == idx n)
        = [(n, idx n)]
  | [], n, _, hmem => by cases hmem
  | m :: rest, n, hnd, hmem => by
    have hnd1 : idx m ∉ rest.map idx := (List.nodup_cons.mp (by simpa using hnd)).1
    have hnd2 : (rest.map idx).Nodup := (List.nodup_cons.mp (by simpa using hnd)).2
    rcases List.mem_cons.mp hmem with rfl | hmem2
    · have hrest : (rest.map (fun a => (a, idx a))).filter (fun p => p.2 == idx n)
          = [] := by
        rw [List.filter_eq_nil_iff]
        intro p hp
        obtain ⟨a, ha, rfl⟩ := List.mem_map.mp hp
        simp only [beq_iff_eq, ne_eq]
        intro hcontra
        exact hnd1 (hcontra ▸ List.mem_map_of_mem idx ha)
      rw [List.map_cons, List.filter_cons_of_pos (by simp), hrest]
    · have hne : (((m, idx m) : NodeId × Nat).2 == idx n) = false := by
        simp only [beq_eq_false_iff_ne, ne_eq]
        intro hcontra
        exact hnd1 (hcontra ▸ List.mem_map_of_mem idx hmem2)
      rw [List.map_cons]
      simp only [List.filter_cons, hne, Bool.false_eq_true, if_false]
      exact filter_items_single idx rest n hnd2 hmem2

theorem filter_items_not_mem (idx : NodeId → Nat) (order : List NodeId) (i : Nat)
    (h : i ∉ order.map idx) :
    (order.map (fun m => (m, idx m))).filter (fun p => p.2 == i) = [] := by
  rw [List.filter_eq_nil_iff]
  intro p hp
  obtain ⟨a, ha, rfl⟩ := List.mem_map.mp hp
  simp only [beq_iff_eq, ne_eq]
  intro hcontra
  exact h (hcontra ▸ List.mem_map_of_mem idx ha)

/-- Claim C4.  When every node with a `NodeSelected` indicator carries the
configured attribute and columns are pairwise distinct, `NodeSelection.apply`
succeeds and adds to each such node's column exactly the two contributions
`attribute-value × weight.resolve()` and `1 × constant.resolve()`, leaves
every column outside the mapping untouched, and adds no constraints. -/
theorem apply_two_contributions (c : NodeSelection) (s : Solver) (n : NodeId)
    (hall : ∀ m ∈ s.nodeSelectedOrder, (s.graph.nodeAttrs m c.attr).isSome = true)
    (hnd : (s.nodeSelectedOrder.map s.nodeSelectedIdx).Nodup)
    (hn : n ∈ s.nodeSelectedOrder) :
    (c.apply s).2 = none
    ∧ (c.apply s).1.objective (s.nodeSelectedIdx n)
        = s.objective (s.nodeSelectedIdx n)
          + (s.graph.nodeAttrs n c.attr).getD 0 * c.weight.resolve
          + 1 * c.constant.resolve
    ∧ (∀ i, i ∉ s.nodeSelectedOrder.map s.nodeSelectedIdx →
        (c.apply s).1.objective i = s.objective i)
    ∧ (c.apply s).1.constraints = s.constraints := by
  have hitems : ∀ p ∈ s.nodeSelectedItems, (s.graph.nodeAttrs p.1 c.attr).isSome = true := by
    intro p hp
    obtain ⟨m, hm, rfl⟩ := List.mem_map.mp hp
    exact hall m hm
  have happ := NodeSelection.applyLoop_eq c s.nodeSelectedItems s hitems
  rw [NodeSelection.apply, happ]
  refine ⟨rfl, ?_, ?_, rfl⟩
  · show s.objective (s.nodeSelectedIdx n)
        + nodeCostContributions c s.graph s.nodeSelectedItems (s.nodeSelectedIdx n) = _
    rw [nodeCostContributions, Solver.nodeSelectedItems,
      filter_items_single s.nodeSelectedIdx s.nodeSelectedOrder n hnd hn]
    simp only [List.map_cons, List.map_nil, List.sum_cons, List.sum_nil]
    ring
  · intro i hi
    show s.objective i + nodeCostContributions c s.graph s.nodeSelectedItems i = _
    rw [nodeCostContributions, Solver.nodeSelectedItems,
      filter_items_not_mem s.nodeSelectedIdx s.nodeSelectedOrder i hi]
    simp

/-- Witness for claim C4: the chain context, weight `2`, constant `1/2`,
node `0`. -/
theorem apply_two_contributions_witness :
    ((NodeSelection.new 2 "costs" (1/2)).apply chainSolver).2 = none
    ∧ ((NodeSelection.new 2 "costs" (1/2)).apply chainSolver).1.objective
          (chainSolver.nodeSelectedIdx 0)
        = chainSolver.objective (chainSolver.nodeSelectedIdx 0)
          + (chainSolver.graph.nodeAttrs 0 (NodeSelection.new 2 "costs" (1/2)).attr).getD 0
            * (NodeSelection.new 2 "costs" (1/2)).weight.resolve
          + 1 * (NodeSelection.new 2 "costs" (1/2)).constant.resolve
    ∧ (∀ i, i ∉ chainSolver.nodeSelectedOrder.map chainSolver.nodeSelectedIdx →
        ((NodeSelection.new 2 "costs" (1/2)).apply chainSolver).1.objective i
          = chainSolver.objective i)
    ∧ ((NodeSelection.new 2 "costs" (1/2)).apply chainSolver).1.constraints
        = chainSolver.constraints :=
  apply_two_contributions (NodeSelection.new 2 "costs" (1/2)) chainSolver 0
    (by decide) (by decide) (by decide)

/-- Claim C6.  If some node with a `NodeSelected` indicator lacks the
configured attribute, `NodeSelection.apply` fails with `KeyError` on the
attribute name, which is a `LookupError`-class failure. -/
theorem missing_attribute_fails (c : NodeSelection) (s : Solver)
    (h : ∃ n ∈ s.nodeSelectedOrder, s.graph.nodeAttrs n c.attr = none) :
    (c.apply s).2 = some (PyError.keyError c.attr)
    ∧ (PyError.keyError c.attr).isLookupError = true := by
  refine ⟨?_, rfl⟩
  rw [NodeSelection.apply]
  apply NodeSelection.applyLoop_missing
  obtain ⟨n, hn, hnone⟩ := h
  exact ⟨(n, s.nodeSelectedIdx n), List.mem_map_of_mem _ hn, hnone⟩

/-- Witness for claim C6: the chain context with `"costs"` missing on
node `1`. -/
theorem missing_attribute_witness :
    ((NodeSelection.new 2 "costs" (1/2)).apply chainSolverMissing).2
        = some (PyError.keyError (NodeSelection.new 2 "costs" (1/2)).attr)
    ∧ (PyError.keyError (NodeSelection.new 2 "costs" (1/2)).attr).isLookupError
        = true :=
  missing_attribute_fails (NodeSelection.new 2 "costs" (1/2)) chainSolverMissing
    (by decide)

/-- Claim C10.  `NodeSelection.apply` walks the `NodeSelected` items in
iteration order; when the attribute is missing on some node, it stops there
with a `KeyError`, and the objective holds exactly the contributions (both
terms) of the nodes preceding the failing one — nothing from the failing node
or any later node, and nothing else changes. -/
theorem partial_application_on_missing (c : NodeSelection) (s : Solver)
    (pre : List NodeId) (bn : NodeId) (post : List NodeId)
    (horder : s.nodeSelectedOrder = pre ++ bn :: post)
    (hpre : ∀ m ∈ pre, (s.graph.nodeAttrs m c.attr).isSome = true)
    (hbad : s.graph.nodeAttrs bn c.attr = none) :
    c.apply s =
      ({ s with objective := fun i => s.objective i + nodeCostContributions c s.graph (pre.map fun m => (m, s.nodeSelectedIdx m)) i },
        some (PyError.keyError c.attr)) := by
  have hpremap : ∀ p ∈ pre.map (fun m => (m, s.nodeSelectedIdx m)),
      (s.graph.nodeAttrs p.1 c.attr).isSome = true := by
    intro p hp
    obtain ⟨m, hm, rfl⟩ := List.mem_map.mp hp
    exact hpre m hm
  rw [NodeSelection.apply, Solver.nodeSelectedItems, horder, List.map_append,
    NodeSelection.applyLoop_append c _ _ s hpremap,
    NodeSelection.applyLoop_eq c _ s hpremap]
  rw [List.map_cons, NodeSelection.applyLoop]
  simp only [hbad]
  rw [horder]

/-- Witness for claim C10: the chain context missing `"costs"` on node `1`;
node `0` precedes it, node `2` follows. -/
theorem partial_application_witness :
    (NodeSelection.new 2 "costs" (1/2)).apply chainSolverMissing =
      ({ chainSolverMissing with objective := fun i => chainSolverMissing.objective i + nodeCostContributions (NodeSelection.new 2 "costs" (1/2)) chainSolverMissing.graph ([0].map fun m => (m, chainSolverMissing.nodeSelectedIdx m)) i },
        some (PyError.keyError (NodeSelection.new 2 "costs" (1/2)).attr)) :=
  partial_application_on_missing (NodeSelection.new 2 "costs" (1/2))
    chainSolverMissing [0] 1 [2] (by decide) (by decide) (by decide)

/-! ### The end-to-end chain scenario and `draw_track_graph` validation -/

/-- Claim C5, amended.  On the chain `A → B → C` with cost attribute `1` per
node, weight `2` and constant `1/2`: `NodeSelection.apply` accumulates `5/2`
on each selection column; and for the assignment selecting nodes `A`, `B` and
edge `(A, B)` (not only `A` — selecting the edge without its target makes
`B`'s constraints infeasible), the `NodeAppear` constraints are satisfied by
binary appear values exactly when `a_A = 1`, `a_B = 0` and `a_C = 0`. -/
theorem chain_scenario (aA aB aC : ℚ)
    (hA : aA = 0 ∨ aA = 1) (hB : aB = 0 ∨ aB = 1) (hC : aC = 0 ∨ aC = 1) :
    ((NodeSelection.new 2 "costs" (1/2)).apply chainSolver).1.objective 0 = 5/2
    ∧ ((NodeSelection.new 2 "costs" (1/2)).apply chainSolver).1.objective 1 = 5/2
    ∧ ((NodeSelection.new 2 "costs" (1/2)).apply chainSolver).1.objective 2 = 5/2
    ∧ (((NodeAppear.instantiate_constraints chainSolver).all fun con =>
          con.satisfiedBy (chainAssignment aA aB aC)) = true
        ↔ (aA = 1 ∧ aB = 0 ∧ aC = 0)) := by
  refine ⟨?_, ?_, ?_, ?_⟩
  · norm_num [NodeSelection.apply, NodeSelection.applyLoop, NodeSelection.new,
      Solver.add_variable_cost, Solver.nodeSelectedItems, chainSolver, chainGraph,
      Weight.resolve]
  · norm_num [NodeSelection.apply, NodeSelection.applyLoop, NodeSelection.new,
      Solver.add_variable_cost, Solver.nodeSelectedItems, chainSolver, chainGraph,
      Weight.resolve]
  · norm_num [NodeSelection.apply, NodeSelection.applyLoop, NodeSelection.new,
      Solver.add_variable_cost, Solver.nodeSelectedItems, chainSolver, chainGraph,
      Weight.resolve]
  · rcases hA with rfl | rfl <;> rcases hB with rfl | rfl <;> rcases hC with rfl | rfl <;>
      norm_num [NodeAppear.instantiate_constraints, NodeAppear.constraintsForNode,
        chainSolver, chainGraph, chainAssignment, LinearConstraint.set_coefficient,
        LinearConstraint.set_relation, LinearConstraint.set_value,
        LinearConstraint.satisfiedBy, LinearConstraint.lhs, Relation.holds]

/-- Witness for the amended claim C5, at the intended solution
`a_A = 1, a_B = 0, a_C = 0`. -/
theorem chain_scenario_witness :
    ((NodeSelection.new 2 "costs" (1/2)).apply chainSolver).1.objective 0 = 5/2
    ∧ ((NodeSelection.new 2 "costs" (1/2)).apply chainSolver).1.objective 1 = 5/2
    ∧ ((NodeSelection.new 2 "costs" (1/2)).apply chainSolver).1.objective 2 = 5/2
    ∧ (((NodeAppear.instantiate_constraints chainSolver).all fun con =>
          con.satisfiedBy (chainAssignment 1 0 0)) = true
        ↔ ((1 : ℚ) = 1 ∧ (0 : ℚ) = 0 ∧ (0 : ℚ) = 0)) :=
  chain_scenario 1 0 0 (Or.inr rfl) (Or.inl rfl) (Or.inl rfl)

/-- Claim C5, counterexample.  Under the literally-stated assignment —
selecting only node `A` and edge `(A, B)` — the appear values `a_A = 1,
a_B = 0` (with `a_C = 0`) do not satisfy the yielded constraints, and
neither does `a_B = 1`: node `B`'s second constraint is infeasible when its
incoming edge is selected but `B` is not. -/
theorem chain_scenario_claim_counterexample :
    ((NodeAppear.instantiate_constraints chainSolver).all fun con =>
        con.satisfiedBy (chainLiteralAssignment 1 0 0)) = false
    ∧ ((NodeAppear.instantiate_constraints chainSolver).all fun con =>
        con.satisfiedBy (chainLiteralAssignment 1 1 0)) = false := by
  constructor <;>
    simp [NodeAppear.instantiate_constraints, NodeAppear.constraintsForNode,
      chainSolver, chainGraph, chainLiteralAssignment,
      LinearConstraint.set_coefficient, LinearConstraint.set_relation,
      LinearConstraint.set_value, LinearConstraint.satisfiedBy,
      LinearConstraint.lhs, Relation.holds]

/-- Claim C7, amended.  When both members of one of the three
attribute/function pairs are supplied, `draw_track_graph`'s argument
validation fails with a `RuntimeError` (not a `ConfigurationError`-class
error, which the code does not define). -/
theorem draw_conflicting_args_raises (pa : Option String) (pf : Option (NodeId → ℚ))
    (aa : Option String) (af : Option (NodeId → ℚ)) (la : Option String)
    (lf : Option (NodeId → String))
    (h : (pa.isSome = true ∧ pf.isSome = true)
      ∨ (aa.isSome = true ∧ af.isSome = true)
      ∨ (la.isSome = true ∧ lf.isSome = true)) :
    ∃ m, draw_track_graph_validate pa pf aa af la lf
      = some (PyError.runtimeError m) := by
  rw [draw_track_graph_validate]
  split_ifs with h1 h2 h3
  · exact ⟨_, rfl⟩
  · exact ⟨_, rfl⟩
  · exact ⟨_, rfl⟩
  · exfalso
    rw [Bool.and_eq_true] at h1 h2 h3
    rcases h with hc | hc | hc
    · exact h1 hc
    · exact h2 hc
    · exact h3 hc

/-- Witness for the amended claim C7: both `position_attribute` and
`position_func` supplied. -/
theorem draw_conflicting_args_witness :
    ∃ m, draw_track_graph_validate (some "x") (some fun _ => (0 : ℚ))
      none none none none = some (PyError.runtimeError m) :=
  draw_conflicting_args_raises (some "x") (some fun _ => (0 : ℚ))
    none none none none (Or.inl ⟨rfl, rfl⟩)

/-- Claim C7, counterexample.  With both `position_attribute` and
`position_func` supplied, the validation fails with `RuntimeError`, which is
not a `ConfigurationError`-class error. -/
theorem draw_conflicting_args_counterexample :
    draw_track_graph_validate (some "x") (some fun _ => (0 : ℚ))
        none none none none
      = some (PyError.runtimeError
          "Only one of position_attribute and position_func can be given")
    ∧ (PyError.runtimeError
        "Only one of position_attribute and position_func can be given").isConfigurationError
      = false :=
  ⟨rfl, rfl⟩

end Motile
